import Mathlib

/-!
Shallow embedding of the DCA trading bot's trade lifecycle engine
(dca_bot.py, database.py, main.py).

Prices and sizes are modeled as rationals (the exact values of the
Python computations); the exchange client, price source and persistent
store are modeled as explicit environments; Python exceptions are
modeled with Except, mirroring the try/except structure of the source
at the same places.  JSON (de)serialization of the safety-order list
stored in the trades table is modeled as the identity on the decoded
list.
-/

namespace DcaBot

/-- Round-half-even of a rational to an integer: the semantics of the
Python built-in round applied to the exact value of its argument. -/
def roundHalfEven (x : ℚ) : ℤ :=
  if x - (⌊x⌋ : ℚ) < 1/2 then ⌊x⌋
  else if 1/2 < x - (⌊x⌋ : ℚ) then ⌊x⌋ + 1
  else if 2 ∣ ⌊x⌋ then ⌊x⌋ else ⌊x⌋ + 1

/-- Python round(x, p): round-half-even to p decimal places. -/
def pyRound (x : ℚ) (p : ℕ) : ℚ := (roundHalfEven (x * 10 ^ p) : ℚ) / 10 ^ p

/-- dca_bot.py line 313: step = price_deviation * (step_scale ** i). -/
def ladderStep (price_deviation step_scale : ℚ) (i : ℕ) : ℚ :=
  price_deviation * step_scale ^ i

/-- dca_bot.py line 314: order_price = round(current_price * (1 - step), 4). -/
def ladderPrice (current_price price_deviation step_scale : ℚ) (i : ℕ) : ℚ :=
  pyRound (current_price * (1 - ladderStep price_deviation step_scale i)) 4

/-- dca_bot.py line 317: order_size = safety_order_size * (volume_scale ** i). -/
def ladderSize (safety_order_size volume_scale : ℚ) (i : ℕ) : ℚ :=
  safety_order_size * volume_scale ^ i

/-- One element of the filled_safety_orders argument of
calculate_average_entry_price: a dict with size and price fields. -/
structure FilledOrder where
  size : ℚ
  price : ℚ
deriving Repr, DecidableEq

/-- dca_bot.py lines 52-76.  The accumulation loop over
filled_safety_orders is a left fold carrying (total_quantity,
total_cost), started at (base_order_size, base_order_size * base_price);
the function returns total_cost / total_quantity when total_quantity > 0
and base_price otherwise. -/
def calculate_average_entry_price (base_order_size base_price : ℚ)
    (filled_safety_orders : List FilledOrder) : ℚ :=
  let acc := filled_safety_orders.foldl
    (fun tc o => (tc.1 + o.size, tc.2 + o.size * o.price))
    (base_order_size, base_order_size * base_price)
  if 0 < acc.1 then acc.2 / acc.1 else base_price

/-- dca_bot.py lines 78-89. -/
def calculate_take_profit_price (avg_entry_price take_profit_percent : ℚ) : ℚ :=
  avg_entry_price * (1 + take_profit_percent)

/-- Response of a successful pybit place_order call: the retCode field
of the returned dict and result.orderId. -/
structure OrderResponse where
  retCode : ℤ
  orderId : String
deriving Repr, DecidableEq

/-- One safety-order dict as built at dca_bot.py lines 347-354 and
stored (JSON-encoded) in the safety_orders column of the trades
table. -/
structure SafetyOrder where
  price : ℚ
  size : ℚ
  index : ℕ
  order_id : String
  client_order_id : String
  status : String
deriving Repr, DecidableEq

/-- A limit order submitted through session.place_order. -/
structure LimitCall where
  symbol : String
  side : String
  qty : ℚ
  price : ℚ
  timeInForce : String
  orderLinkId : Option String
deriving Repr, DecidableEq

/-- The strategy parameters of DCA_CONFIG (config.json / the fallback
dict at dca_bot.py lines 29-37). -/
structure DcaConfig where
  base_order : ℚ
  safety_order : ℚ
  price_deviation : ℚ
  safety_order_volume_scale : ℚ
  safety_order_step_scale : ℚ
  max_safety_orders : ℕ
  take_profit_percent : ℚ
deriving Repr, DecidableEq

/-- The external world as seen by one run of execute_dca_trade: the
outcome of the base market order (Except.error models a raised
exception), the get_current_price sample taken after the base order,
the fresh market sample taken inside the loop for rung i, the outcome
of the limit order for rung i, the int(time.time()) clock value used in
client order ids, the deal number get_next_deal_number would return,
whether the database commit inside save_trade succeeds, and the row id
it assigns. -/
structure ExecEnv where
  baseOrderResult : Except String OrderResponse
  priceAfterBase : ℚ
  rungMarketPrice : ℕ → ℚ
  rungOrderResult : ℕ → Except String OrderResponse
  now : ℕ
  dealNumber : ℕ
  saveOk : Bool
  savedId : ℕ

/-- dca_bot.py line 326: client_order_id = f"SO_pair_i+1_time". -/
def clientOrderId (pair : String) (i : ℕ) (now : ℕ) : String :=
  "SO_" ++ pair ++ "_" ++ toString (i + 1) ++ "_" ++ toString now

/-- One iteration of the safety-order loop of execute_dca_trade
(dca_bot.py lines 311-358), threading the accumulated safety_orders
list and the limit orders submitted to the exchange.  A rung whose
price is at or above the fresh market sample is skipped (continue); a
submission that raises or returns a nonzero retCode is logged and not
appended. -/
def ladderLoopStep (cfg : DcaConfig) (pair : String) (current_price : ℚ)
    (env : ExecEnv) (acc : List SafetyOrder × List LimitCall) (i : ℕ) :
    List SafetyOrder × List LimitCall :=
  let order_price := ladderPrice current_price cfg.price_deviation cfg.safety_order_step_scale i
  let order_size := ladderSize cfg.safety_order cfg.safety_order_volume_scale i
  let current_market_price := env.rungMarketPrice i
  if current_market_price ≤ order_price then acc
  else
    let call : LimitCall :=
      { symbol := pair, side := "Buy", qty := order_size, price := order_price,
        timeInForce := "PostOnly", orderLinkId := some (clientOrderId pair i env.now) }
    match env.rungOrderResult i with
    | Except.error _ => (acc.1, acc.2 ++ [call])
    | Except.ok r =>
      if r.retCode = 0 then
        (acc.1 ++ [{ price := order_price, size := order_size, index := i + 1,
                     order_id := r.orderId,
                     client_order_id := clientOrderId pair i env.now,
                     status := "open" }],
         acc.2 ++ [call])
      else (acc.1, acc.2 ++ [call])

/-- The full safety-order loop: for i in range(max_safety_orders). -/
def ladderLoop (cfg : DcaConfig) (pair : String) (current_price : ℚ)
    (env : ExecEnv) : List SafetyOrder × List LimitCall :=
  (List.range cfg.max_safety_orders).foldl (ladderLoopStep cfg pair current_price env) ([], [])

/-- The Python return value of save_trade: the new row id on success,
False when the write raised and was rolled back (database.py lines
94-99). -/
inductive SaveRet where
  | id (n : ℕ)
  | fail
deriving Repr, DecidableEq

/-- The trades row written by save_trade (database.py lines 67-76),
named per the schema of lines 21-31 (timestamps omitted). -/
structure SavedTrade where
  id : ℕ
  deal_number : ℕ
  pair : String
  base_order : ℚ
  safety_orders : List SafetyOrder
  take_profit : ℚ
  take_profit_price : ℚ
  status : String
deriving Repr, DecidableEq

/-- A row of the orders table in schema order (database.py lines
34-44): id, trade_id, order_id, client_order_id, order_type, price,
size, status, created_at. -/
structure OrderRow where
  id : ℕ
  trade_id : ℕ
  order_id : String
  client_order_id : String
  order_type : String
  price : ℚ
  size : ℚ
  status : String
  created_at : String
deriving Repr, DecidableEq

/-- database.py lines 57-102.  On success the trade row plus one orders
row per safety order (order_type hard-coded to "safety_order") are
committed in one transaction and the new row id is returned; on any
exception the transaction is rolled back, so nothing at all is
persisted, and Python False is returned.  The autoincrement order-row
ids are modeled by list position. -/
def save_trade (ok : Bool) (tid deal : ℕ) (pair : String) (base_order : ℚ)
    (safety_orders : List SafetyOrder) (take_profit take_profit_price : ℚ) :
    SaveRet × Option SavedTrade × List OrderRow :=
  if ok then
    (SaveRet.id tid,
     some { id := tid, deal_number := deal, pair := pair, base_order := base_order,
            safety_orders := safety_orders, take_profit := take_profit,
            take_profit_price := take_profit_price, status := "open" },
     safety_orders.enum.map (fun p =>
       { id := p.1 + 1, trade_id := tid, order_id := p.2.order_id,
         client_order_id := p.2.client_order_id, order_type := "safety_order",
         price := p.2.price, size := p.2.size, status := p.2.status,
         created_at := "" }))
  else (SaveRet.fail, none, [])

/-- The dict returned by execute_dca_trade: the failure dict
{success: False, error: e}, or the success dict of dca_bot.py lines
367-376 whose success field is True unconditionally and whose trade_id
field carries whatever save_trade returned (timestamp omitted). -/
inductive ExecResult where
  | failure (error : String)
  | ok (trade_id : SaveRet) (pair : String) (base_order : ℚ)
       (safety_orders : ℕ) (take_profit : ℚ) (take_profit_price : ℚ)
deriving Repr, DecidableEq

/-- Observable outcome of one run of execute_dca_trade: the returned
dict plus the side effects on the exchange (safety limit orders
submitted) and on the store (rows committed by save_trade). -/
structure ExecOutcome where
  result : ExecResult
  limitOrderCalls : List LimitCall
  savedTrade : Option SavedTrade
  savedOrders : List OrderRow
deriving Repr, DecidableEq

/-- dca_bot.py lines 263-380, with the session assumed initialized and
the configuration of lines 282-288 passed as cfg.  A base-order
exception returns the failure dict at once: no safety order is
submitted and nothing is persisted.  Otherwise the price is sampled,
the ladder loop runs, the initial take-profit price is computed from
the sampled price, and save_trade persists the trade with whatever
rungs succeeded. -/
def execute_dca_trade (cfg : DcaConfig) (pair : String) (env : ExecEnv) : ExecOutcome :=
  match env.baseOrderResult with
  | Except.error e =>
    { result := ExecResult.failure ("Failed to place base order: " ++ e),
      limitOrderCalls := [], savedTrade := none, savedOrders := [] }
  | Except.ok _ =>
    let current_price := env.priceAfterBase
    let ladder := ladderLoop cfg pair current_price env
    let initial_take_profit_price :=
      calculate_take_profit_price current_price cfg.take_profit_percent
    let saved := save_trade env.saveOk env.savedId env.dealNumber pair cfg.base_order
      ladder.1 cfg.take_profit_percent initial_take_profit_price
    { result := ExecResult.ok saved.1 pair cfg.base_order ladder.1.length
        cfg.take_profit_percent initial_take_profit_price,
      limitOrderCalls := ladder.2,
      savedTrade := saved.2.1,
      savedOrders := saved.2.2 }

/-- The candidate rung i survives to the persisted ladder iff its
calculated price is strictly below the fresh market sample at its check
and its limit-order submission returns retCode 0; a surviving rung
keeps its one-based index i + 1. -/
def survivingRung (cfg : DcaConfig) (pair : String) (current_price : ℚ)
    (env : ExecEnv) (i : ℕ) : Option SafetyOrder :=
  let order_price := ladderPrice current_price cfg.price_deviation cfg.safety_order_step_scale i
  let order_size := ladderSize cfg.safety_order cfg.safety_order_volume_scale i
  if env.rungMarketPrice i ≤ order_price then none
  else
    match env.rungOrderResult i with
    | Except.error _ => none
    | Except.ok r =>
      if r.retCode = 0 then
        some { price := order_price, size := order_size, index := i + 1,
               order_id := r.orderId,
               client_order_id := clientOrderId pair i env.now,
               status := "open" }
      else none

/-- A value in a sqlite row.  The safety_orders TEXT column holds a
JSON-encoded safety-order list; (de)serialization is modeled as the
identity on the decoded list, carried by the solist constructor. -/
inductive DbVal where
  | int (n : ℤ)
  | real (q : ℚ)
  | text (s : String)
  | solist (l : List SafetyOrder)
  | null
deriving Repr, DecidableEq

/-- A row of the trades table under the schema of database.py lines
21-31, in column order: id, deal_number, pair, base_order,
safety_orders, take_profit, take_profit_price, status, created_at,
last_updated. -/
structure TradesRow where
  id : ℕ
  deal_number : ℕ
  pair : String
  base_order : ℚ
  safety_orders : List SafetyOrder
  take_profit : ℚ
  take_profit_price : ℚ
  status : String
  created_at : String
  last_updated : String
deriving Repr, DecidableEq

/-- The tuple cursor.fetchone returns for a trades row under
SELECT * : ten values in schema order. -/
def TradesRow.tuple (t : TradesRow) : List DbVal :=
  [DbVal.int t.id, DbVal.int t.deal_number, DbVal.text t.pair,
   DbVal.real t.base_order, DbVal.solist t.safety_orders,
   DbVal.real t.take_profit, DbVal.real t.take_profit_price,
   DbVal.text t.status, DbVal.text t.created_at, DbVal.text t.last_updated]

/-- Python tuple unpacking with eight targets, as written at dca_bot.py
lines 138 and 202: it succeeds only on a tuple of length exactly eight
and raises ValueError otherwise. -/
def unpack8 (l : List DbVal) :
    Except String (DbVal × DbVal × DbVal × DbVal × DbVal × DbVal × DbVal × DbVal) :=
  match l with
  | [a, b, c, d, e, f, g, h] => Except.ok (a, b, c, d, e, f, g, h)
  | _ =>
    if 8 < l.length then
      Except.error "ValueError: too many values to unpack (expected 8)"
    else
      Except.error "ValueError: not enough values to unpack"

/-- Duck-typed use of a row value as a string; a wrong runtime type
raises. -/
def DbVal.asText : DbVal → Except String String
  | DbVal.text s => Except.ok s
  | _ => Except.error "TypeError"

/-- Duck-typed use of a row value as a number; a wrong runtime type
raises. -/
def DbVal.asReal : DbVal → Except String ℚ
  | DbVal.real q => Except.ok q
  | DbVal.int n => Except.ok (n : ℚ)
  | _ => Except.error "TypeError"

/-- json.loads of the safety_orders column (deserialization modeled as
the identity on the decoded list). -/
def DbVal.asSOList : DbVal → Except String (List SafetyOrder)
  | DbVal.solist l => Except.ok l
  | _ => Except.error "TypeError"

/-- The external world for one call of check_and_place_take_profit_order
or update_trade_take_profit_target: the successive get_current_price
samples in call order, and the outcome of the take-profit place_order
call. -/
structure TpEnv where
  priceAt : ℕ → ℚ
  tpOrderResult : Except String OrderResponse

/-- The dict returned by check_and_place_take_profit_order: a
success-False dict with an error message, or a success-True dict with
the exchange response. -/
inductive TpResult where
  | failed (error : String)
  | placed (order : OrderResponse)
deriving Repr, DecidableEq

/-- Observable outcome of check_and_place_take_profit_order: the
returned dict, the sell orders submitted to the exchange, and the
status written through update_trade_status, when any. -/
structure TpOutcome where
  result : TpResult
  sellOrders : List LimitCall
  statusUpdate : Option String
deriving Repr, DecidableEq

/-- dca_bot.py lines 207-217: total_quantity starts at base_order and,
for each stored safety order in turn, a fresh price sample is taken and
the size is added when the rung price is at or above that sample (the
price-only fill heuristic). -/
def tpTotalQuantity (env : TpEnv) (base_order : ℚ) (sos : List SafetyOrder) : ℚ :=
  sos.enum.foldl
    (fun acc p => if env.priceAt p.1 ≤ p.2.price then acc + p.2.size else acc)
    base_order

/-- dca_bot.py lines 182-261 with the session assumed initialized.  The
trade argument is the raw row get_trade_by_id returns.  The body runs
inside Except; the match at the end models the enclosing try/except of
lines 195-261, which converts any raised exception into a
success-False dict.  After the status check, the quantity loop samples
one price per stored rung (calls 0..n-1), one further sample (call n)
serves as both the proxy base price and the fill threshold of the
filled-rung filter, the take-profit price is computed fresh from the
resulting average entry (not read from the stored take_profit_price
column), and the sell limit order is submitted good-till-cancelled. -/
def check_and_place_take_profit_order (env : TpEnv) (trade_id : ℕ)
    (trade : Option (List DbVal)) : TpOutcome :=
  let noEffect : String → TpOutcome := fun e =>
    { result := TpResult.failed e, sellOrders := [], statusUpdate := none }
  let body : Except String TpOutcome :=
    match trade with
    | none => Except.ok (noEffect ("Trade " ++ toString trade_id ++ " not found"))
    | some row => do
      let u ← unpack8 row
      match u with
      | (_, _, pairV, baseV, soJsonV, tpPctV, statusV, _) =>
        if statusV ≠ DbVal.text "open" then
          return noEffect ("Trade " ++ toString trade_id ++ " is not open")
        else do
          let safety_orders ← soJsonV.asSOList
          let base_order ← baseV.asReal
          let take_profit_percent ← tpPctV.asReal
          let pair ← pairV.asText
          let total_quantity := tpTotalQuantity env base_order safety_orders
          let current_price := env.priceAt safety_orders.length
          let filled := safety_orders.filter (fun so => current_price ≤ so.price)
          let avg_entry_price := calculate_average_entry_price base_order current_price
            (filled.map (fun so => { size := so.size, price := so.price }))
          let take_profit_price :=
            calculate_take_profit_price avg_entry_price take_profit_percent
          let call : LimitCall :=
            { symbol := pair, side := "Sell", qty := total_quantity,
              price := take_profit_price, timeInForce := "GoodTillCancel",
              orderLinkId := none }
          match env.tpOrderResult with
          | Except.error e =>
            return { result := TpResult.failed e, sellOrders := [call],
                     statusUpdate := none }
          | Except.ok r =>
            if r.retCode = 0 then
              return { result := TpResult.placed r, sellOrders := [call],
                       statusUpdate := some "take_profit_placed" }
            else
              return { result := TpResult.failed "Failed to place take profit order",
                       sellOrders := [call], statusUpdate := none }
  match body with
  | Except.ok out => out
  | Except.error e => noEffect e

/-- dca_bot.py lines 120-180 with the session assumed initialized.  The
whole body runs inside the try/except of lines 130-180, so the function
returns False on any raised exception.  Call 0 of the price source is
the base-price sample of line 145, call k + 1 the per-rung sample of
line 156; a rung counts as filled when its price is at or above its
sample.  On success the freshly computed take-profit price is written
through update_trade_take_profit and True is returned. -/
def update_trade_take_profit_target (env : TpEnv) (take_profit_percent : ℚ)
    (trade : Option (List DbVal)) : Bool × Option ℚ :=
  let body : Except String (Bool × Option ℚ) :=
    match trade with
    | none => Except.ok (false, none)
    | some row => do
      let u ← unpack8 row
      match u with
      | (_, _, _, baseV, soJsonV, _, statusV, _) =>
        if statusV ≠ DbVal.text "open" then
          return (false, none)
        else do
          let base_price := env.priceAt 0
          let safety_orders ← soJsonV.asSOList
          let base_order ← baseV.asReal
          let filled := (safety_orders.enum.filter
            (fun p => env.priceAt (p.1 + 1) ≤ p.2.price)).map Prod.snd
          let avg_entry_price := calculate_average_entry_price base_order base_price
            (filled.map (fun so => { size := so.size, price := so.price }))
          let new_take_profit_price :=
            calculate_take_profit_price avg_entry_price take_profit_percent
          return (true, some new_take_profit_price)
  match body with
  | Except.ok out => out
  | Except.error _ => (false, none)

/-- The world for one tick of the monitoring loop: the rows
get_trade_by_id returns per trade id, the price/exchange environments
each helper call sees per trade id, and the configured take-profit
percent. -/
structure TickEnv where
  db : ℕ → Option (List DbVal)
  uEnv : ℕ → TpEnv
  cEnv : ℕ → TpEnv
  take_profit_percent : ℚ

/-- The per-trade body of one tick of monitor_safety_orders
(dca_bot.py lines 395-402): the take-profit target update followed by
the placement attempt.  Both helpers catch all their exceptions
internally, so each returns a value and the for loop always reaches
the next trade. -/
def monitorProcessTrade (env : TickEnv) (tid : ℕ) : (Bool × Option ℚ) × TpOutcome :=
  (update_trade_take_profit_target (env.uEnv tid) env.take_profit_percent (env.db tid),
   check_and_place_take_profit_order (env.cEnv tid) tid (env.db tid))

/-- One tick of monitor_safety_orders over the rows get_open_trades
returned: trade_id is taken from column 0 of each row and every trade
is processed in order. -/
def monitorTick (env : TickEnv) (open_trades : List TradesRow) :
    List ((Bool × Option ℚ) × TpOutcome) :=
  open_trades.map (fun t => monitorProcessTrade env t.id)

/-- The tuple cursor.fetchall yields for an orders row under SELECT * :
nine values in schema order, so order_type sits at index 4 and the
exchange order id at index 2 (the indices main.py lines 290 and 301
read). -/
def OrderRow.tuple (o : OrderRow) : List DbVal :=
  [DbVal.int o.id, DbVal.int o.trade_id, DbVal.text o.order_id,
   DbVal.text o.client_order_id, DbVal.text o.order_type,
   DbVal.real o.price, DbVal.real o.size, DbVal.text o.status,
   DbVal.text o.created_at]

/-- The only statements in the repository that write the orders table:
the INSERT loop of save_trade (database.py lines 82-91, order_type
hard-coded to "safety_order", a no-op when the surrounding transaction
rolls back) and the status UPDATE of update_order_status (database.py
lines 144-162). -/
inductive OrdersStoreOp where
  | insertTradeOrders (trade_id : ℕ) (sos : List SafetyOrder) (committed : Bool)
  | updateOrderStatus (order_id : String) (status : String)

/-- Effect of one orders-table write on the stored rows; autoincrement
ids are modeled by position past the current length. -/
def applyOrdersOp (store : List OrderRow) : OrdersStoreOp → List OrderRow
  | OrdersStoreOp.insertTradeOrders tid sos committed =>
    if committed then
      store ++ sos.enum.map (fun p =>
        { id := store.length + p.1 + 1, trade_id := tid, order_id := p.2.order_id,
          client_order_id := p.2.client_order_id, order_type := "safety_order",
          price := p.2.price, size := p.2.size, status := p.2.status,
          created_at := "" })
    else store
  | OrdersStoreOp.updateOrderStatus oid st =>
    store.map (fun o => if o.order_id = oid then { o with status := st } else o)

/-- The orders table produced by any sequence of the repository's
order-writing operations, starting from the empty table init_db
creates. -/
def runOrdersOps (ops : List OrdersStoreOp) : List OrderRow :=
  ops.foldl applyOrdersOp []

/-- database.py lines 216-229: SELECT * FROM orders WHERE trade_id = ?. -/
def get_trade_orders (store : List OrderRow) (tid : ℕ) : List OrderRow :=
  store.filter (fun o => o.trade_id == tid)

/-- Response of the cancel endpoint: a success body or an HTTPException
with status code and detail. -/
inductive HttpResult where
  | ok (message : String)
  | httpError (status : ℕ) (detail : String)
deriving Repr, DecidableEq

/-- Observable outcome of the cancel endpoint: the response, the order
ids passed to session.cancel_order, and the status written through
update_trade_status, when any. -/
structure CancelOutcome where
  result : HttpResult
  cancelCalls : List String
  statusUpdate : Option String
deriving Repr, DecidableEq

/-- main.py lines 260-312.  The not-found and wrong-status guards of
lines 266-272 run before the try block and surface directly.  The rest
runs inside try/except Exception; since HTTPException is an Exception,
every HTTPException raised there (the missing-keys 500, the
order-not-found 404, the cancel-failure 500) is caught at line 310 and
re-raised as a 500 whose detail is str(e), which Starlette renders as
"status: detail" - the model writes those surfaced 500s directly.  The
search scans the order tuples for order_type (tuple index 4) equal to
"take_profit", and the exchange order id read at tuple index 2 is the
order_id column. -/
def cancel_take_profit_order (hasKeys : Bool)
    (cancelResult : Except String OrderResponse) (trade_id : ℕ)
    (trade : Option TradesRow) (orders : List OrderRow) : CancelOutcome :=
  match trade with
  | none =>
    { result := HttpResult.httpError 404
        ("Trade with ID " ++ toString trade_id ++ " not found"),
      cancelCalls := [], statusUpdate := none }
  | some t =>
    if t.status ≠ "take_profit_placed" then
      { result := HttpResult.httpError 400
          ("No take profit order placed for trade with status " ++ t.status),
        cancelCalls := [], statusUpdate := none }
    else if ¬ hasKeys then
      { result := HttpResult.httpError 500 "500: API key or secret missing",
        cancelCalls := [], statusUpdate := none }
    else
      match orders.find?
          (fun o => o.tuple.get? 4 == some (DbVal.text "take_profit")) with
      | none =>
        { result := HttpResult.httpError 500 "404: Take profit order not found",
          cancelCalls := [], statusUpdate := none }
      | some tpo =>
        match cancelResult with
        | Except.error e =>
          { result := HttpResult.httpError 500 e,
            cancelCalls := [tpo.order_id], statusUpdate := none }
        | Except.ok r =>
          if r.retCode = 0 then
            { result := HttpResult.ok
                ("Take profit order cancelled for trade " ++ toString trade_id),
              cancelCalls := [tpo.order_id], statusUpdate := some "open" }
          else
            { result := HttpResult.httpError 500 "500: Failed to cancel order",
              cancelCalls := [tpo.order_id], statusUpdate := none }

/-- The end-to-end configuration of the worked example: base 30,
safety 60, deviation 0.005, volume scale 2, step scale 2, three safety
orders, take-profit 1%. -/
def sampleCfg : DcaConfig :=
  { base_order := 30, safety_order := 60, price_deviation := 1/200,
    safety_order_volume_scale := 2, safety_order_step_scale := 2,
    max_safety_orders := 3, take_profit_percent := 1/100 }

/-- A concrete run environment with the base-order outcome and the
save-commit outcome as parameters: all price samples 0.05, every rung
submission accepted with retCode 0. -/
def sampleExecEnv (base : Except String OrderResponse) (saveOk : Bool) : ExecEnv :=
  { baseOrderResult := base, priceAfterBase := 1/20,
    rungMarketPrice := fun _ => 1/20,
    rungOrderResult := fun i => Except.ok ⟨0, "oid" ++ toString i⟩,
    now := 1700000000, dealNumber := 1, saveOk := saveOk, savedId := 1 }

/-- A well-formed OPEN trade row under the current ten-column schema,
exactly as save_trade stores it. -/
def sampleOpenTrade : TradesRow :=
  { id := 1, deal_number := 1, pair := "ETHUSDT", base_order := 30,
    safety_orders := [{ price := 249/5000, size := 60, index := 1,
                        order_id := "so1",
                        client_order_id := "SO_ETHUSDT_1_1700000000",
                        status := "open" }],
    take_profit := 1/100, take_profit_price := 101/2000, status := "open",
    created_at := "2026-01-01T00:00:00", last_updated := "2026-01-01T00:00:00" }

/-- The same trade after a take-profit order has been placed. -/
def samplePlacedTrade : TradesRow :=
  { sampleOpenTrade with id := 2, status := "take_profit_placed" }

/-- A concrete take-profit environment: all price samples 0.05, the
place_order call accepted with retCode 0. -/
def sampleTpEnv : TpEnv :=
  { priceAt := fun _ => 1/20, tpOrderResult := Except.ok ⟨0, "tp1"⟩ }

/-- A concrete tick environment over the two sample trades. -/
def sampleTickEnv : TickEnv :=
  { db := fun tid =>
      if tid = 1 then some sampleOpenTrade.tuple
      else if tid = 2 then some samplePlacedTrade.tuple else none,
    uEnv := fun _ => sampleTpEnv, cEnv := fun _ => sampleTpEnv,
    take_profit_percent := 1/100 }

/-- Spec-side total quantity of averageEntryPrice: the base order size
plus the sizes of the filled rungs. -/
def specTotalSize (base_order_size : ℚ) (fs : List FilledOrder) : ℚ :=
  base_order_size + (fs.map FilledOrder.size).sum

/-- Spec-side total cost of averageEntryPrice: size times price summed
over the base order plus the filled rungs. -/
def specTotalCost (base_order_size base_price : ℚ) (fs : List FilledOrder) : ℚ :=
  base_order_size * base_price + (fs.map (fun o => o.size * o.price)).sum

theorem le_roundHalfEven (x : ℚ) : ⌊x⌋ ≤ roundHalfEven x := by
  unfold roundHalfEven
  split_ifs <;> omega

theorem roundHalfEven_le (x : ℚ) : roundHalfEven x ≤ ⌊x⌋ + 1 := by
  unfold roundHalfEven
  split_ifs <;> omega

theorem roundHalfEven_mono {x y : ℚ} (hxy : x ≤ y) :
    roundHalfEven x ≤ roundHalfEven y := by
  rcases lt_or_eq_of_le (Int.floor_le_floor hxy) with hlt | heq
  · have h1 := roundHalfEven_le x
    have h2 := le_roundHalfEven y
    omega
  · unfold roundHalfEven
    rw [← heq]
    have hle : x - (⌊x⌋ : ℚ) ≤ y - (⌊x⌋ : ℚ) := by linarith
    split_ifs <;> first | omega | (exfalso; linarith)

theorem pyRound_mono {x y : ℚ} (p : ℕ) (hxy : x ≤ y) :
    pyRound x p ≤ pyRound y p := by
  unfold pyRound
  have hp : (0 : ℚ) < 10 ^ p := by positivity
  have h := roundHalfEven_mono (mul_le_mul_of_nonneg_right hxy (le_of_lt hp))
  exact (div_le_div_iff_of_pos_right hp).mpr (by exact_mod_cast h)

theorem avg_entry_foldl (fs : List FilledOrder) (a c : ℚ) :
    fs.foldl (fun tc o => (tc.1 + o.size, tc.2 + o.size * o.price)) (a, c)
      = (a + (fs.map FilledOrder.size).sum,
         c + (fs.map (fun o => o.size * o.price)).sum) := by
  induction fs generalizing a c with
  | nil => simp
  | cons o t ih =>
    rw [List.foldl_cons, ih]
    simp [List.sum_cons]
    constructor <;> ring

/-- C4 counterexample: with reference price 0.0001, deviation 0.005
and step scale 2 - all inside the domain the claim quantifies over,
with two or more rungs - rungs 0 and 1 both round to 0.0001, so the
rounded ladder prices the code computes are not strictly decreasing. -/
theorem rounded_ladder_not_strictly_decreasing :
    (0 : ℚ) < 1/10000 ∧ (0 : ℚ) < 1/200 ∧ (1 : ℚ) < 2 ∧
    ladderPrice (1/10000) (1/200) 2 0 = 1/10000 ∧
    ladderPrice (1/10000) (1/200) 2 1 = 1/10000 ∧
    ¬ ladderPrice (1/10000) (1/200) 2 1 < ladderPrice (1/10000) (1/200) 2 0 := by
  norm_num [ladderPrice, ladderStep, pyRound, roundHalfEven]

/-- C4 (amended): for step scale above one and positive deviation and
reference price, the pre-rounding ladder prices are strictly decreasing
in the rung index, and the rounded prices the code stores are weakly
decreasing; strict decrease can be lost to rounding. -/
theorem ladder_strict_before_rounding_weak_after
    (P0 d s : ℚ) (hP : 0 < P0) (hd : 0 < d) (hs : 1 < s)
    (i j : ℕ) (hij : i < j) :
    P0 * (1 - ladderStep d s j) < P0 * (1 - ladderStep d s i) ∧
    ladderPrice P0 d s j ≤ ladderPrice P0 d s i := by
  have hpow : s ^ i < s ^ j := pow_lt_pow_right₀ hs hij
  have hstep : ladderStep d s i < ladderStep d s j := by
    unfold ladderStep
    exact mul_lt_mul_of_pos_left hpow hd
  have hmul : P0 * (1 - ladderStep d s j) < P0 * (1 - ladderStep d s i) := by
    have : 1 - ladderStep d s j < 1 - ladderStep d s i := by linarith
    exact mul_lt_mul_of_pos_left this hP
  exact ⟨hmul, pyRound_mono 4 (le_of_lt hmul)⟩

theorem ladder_strict_before_rounding_weak_after_witness :
    ((0 : ℚ) < 1/20 ∧ (0 : ℚ) < 1/200 ∧ (1 : ℚ) < 2 ∧ 0 < 1) ∧
    ((1/20 : ℚ) * (1 - ladderStep (1/200) 2 1) < 1/20 * (1 - ladderStep (1/200) 2 0) ∧
     ladderPrice (1/20) (1/200) 2 1 ≤ ladderPrice (1/20) (1/200) 2 0) :=
  ⟨by norm_num,
   ladder_strict_before_rounding_weak_after (1/20) (1/200) 2 (by norm_num)
     (by norm_num) (by norm_num) 0 1 (by norm_num)⟩

/-- C5 counterexample: with the documented configuration and sampled
price 0.05, the first rung price the code computes is
round(0.04975, 4) = 0.0498, not the 0.04975 the claim lists. -/
theorem first_rung_price_not_claimed_value :
    ladderPrice (1/20) (1/200) 2 0 ≠ 4975/100000 := by
  norm_num [ladderPrice, ladderStep, pyRound, roundHalfEven]

/-- C5 (amended): every rung obeys step i = d s^i,
price i = round(P0 (1 - step i), 4) and size i = safety v^i, and for
the configuration base 30 / safety 60 / deviation 0.005 / volume scale
2 / step scale 2 / three rungs at sampled price 0.05 the steps are
0.5%, 1%, 2%, the sizes 60, 120, 240, and the prices 0.0498, 0.0495,
0.049 - the first rung rounds to 0.0498 rather than the claimed
0.04975. -/
theorem ladder_formulas_and_sample_values :
    (∀ (P0 d s : ℚ) (i : ℕ),
        ladderStep d s i = d * s ^ i ∧
        ladderPrice P0 d s i = pyRound (P0 * (1 - d * s ^ i)) 4) ∧
    (∀ (ssize v : ℚ) (i : ℕ), ladderSize ssize v i = ssize * v ^ i) ∧
    ladderStep (1/200) 2 0 = 5/1000 ∧
    ladderStep (1/200) 2 1 = 10/1000 ∧
    ladderStep (1/200) 2 2 = 20/1000 ∧
    ladderPrice (1/20) (1/200) 2 0 = 498/10000 ∧
    ladderPrice (1/20) (1/200) 2 1 = 495/10000 ∧
    ladderPrice (1/20) (1/200) 2 2 = 490/10000 ∧
    ladderSize 60 2 0 = 60 ∧ ladderSize 60 2 1 = 120 ∧ ladderSize 60 2 2 = 240 := by
  refine ⟨fun P0 d s i => ⟨rfl, rfl⟩, fun ssize v i => rfl,
    ?_, ?_, ?_, ?_, ?_, ?_, ?_, ?_, ?_⟩ <;>
    norm_num [ladderPrice, ladderStep, ladderSize, pyRound, roundHalfEven]

/-- C6: calculate_average_entry_price returns the size-weighted mean
over the base order plus the filled rungs, and the base price when the
total size is zero (order sizes being nonnegative); with zero filled
rungs it returns the base price exactly, and the documented example
base 10 at 1.0 with one filled rung 10 at 0.5 evaluates to 0.75. -/
theorem average_entry_price_weighted_mean
    (b p : ℚ) (fs : List FilledOrder) (hb : 0 ≤ b)
    (hfs : ∀ o ∈ fs, 0 ≤ o.size) :
    (calculate_average_entry_price b p fs =
       if specTotalSize b fs = 0 then p
       else specTotalCost b p fs / specTotalSize b fs) ∧
    calculate_average_entry_price b p [] = p ∧
    calculate_average_entry_price 10 1 [⟨10, 1/2⟩] = 3/4 := by
  refine ⟨?_, ?_, by norm_num [calculate_average_entry_price]⟩
  · have hsum : 0 ≤ (fs.map FilledOrder.size).sum := by
      apply List.sum_nonneg
      intro q hq
      rcases List.mem_map.1 hq with ⟨o, ho, rfl⟩
      exact hfs o ho
    unfold calculate_average_entry_price specTotalSize specTotalCost
    rw [avg_entry_foldl]
    by_cases hz : b + (fs.map FilledOrder.size).sum = 0
    · rw [if_pos hz, if_neg (by rw [hz]; exact lt_irrefl 0)]
    · have hpos : 0 < b + (fs.map FilledOrder.size).sum :=
        lt_of_le_of_ne (by linarith) (Ne.symm hz)
      rw [if_pos hpos, if_neg hz]
  · unfold calculate_average_entry_price
    rw [List.foldl_nil]
    by_cases hb0 : 0 < b
    · rw [if_pos hb0, mul_comm, mul_div_assoc, div_self (ne_of_gt hb0), mul_one]
    · rw [if_neg hb0]

theorem average_entry_price_weighted_mean_witness :
    (0 ≤ (10 : ℚ)) ∧ (∀ o ∈ [(⟨10, 1/2⟩ : FilledOrder)], 0 ≤ o.size) ∧
    ((calculate_average_entry_price 10 1 [⟨10, 1/2⟩] =
        if specTotalSize 10 [⟨10, 1/2⟩] = 0 then 1
        else specTotalCost 10 1 [⟨10, 1/2⟩] / specTotalSize 10 [⟨10, 1/2⟩]) ∧
     calculate_average_entry_price 10 1 [] = 1 ∧
     calculate_average_entry_price 10 1 [⟨10, 1/2⟩] = 3/4) :=
  ⟨by norm_num,
   by
     intro o ho
     rw [List.mem_singleton] at ho
     subst ho
     norm_num,
   average_entry_price_weighted_mean 10 1 [⟨10, 1/2⟩] (by norm_num)
     (by
       intro o ho
       rw [List.mem_singleton] at ho
       subst ho
       norm_num)⟩

/-- C3: when the base market order raises, execute_dca_trade returns
the failure dict at once; no safety limit order is submitted to the
exchange and no trade row or order row is persisted. -/
theorem base_order_failure_is_fatal (cfg : DcaConfig) (pair : String)
    (env : ExecEnv) (e : String) (h : env.baseOrderResult = Except.error e) :
    execute_dca_trade cfg pair env =
      { result := ExecResult.failure ("Failed to place base order: " ++ e),
        limitOrderCalls := [], savedTrade := none, savedOrders := [] } := by
  unfold execute_dca_trade
  rw [h]

theorem base_order_failure_is_fatal_witness :
    (sampleExecEnv (Except.error "boom") true).baseOrderResult
        = Except.error "boom" ∧
    execute_dca_trade sampleCfg "ETHUSDT" (sampleExecEnv (Except.error "boom") true) =
      { result := ExecResult.failure ("Failed to place base order: " ++ "boom"),
        limitOrderCalls := [], savedTrade := none, savedOrders := [] } :=
  ⟨rfl, base_order_failure_is_fatal sampleCfg "ETHUSDT" _ "boom" rfl⟩

/-- C2 (code bug): when the base order succeeds but the save_trade
write fails, execute_dca_trade still returns the success dict of lines
367-376 - its success field is True; only the trade_id field, carrying
Python False, betrays that nothing was persisted. -/
theorem save_failure_still_reports_success (cfg : DcaConfig) (pair : String)
    (env : ExecEnv) (r : OrderResponse)
    (hb : env.baseOrderResult = Except.ok r) (hs : env.saveOk = false) :
    (execute_dca_trade cfg pair env).result =
      ExecResult.ok SaveRet.fail pair cfg.base_order
        (ladderLoop cfg pair env.priceAfterBase env).1.length
        cfg.take_profit_percent
        (calculate_take_profit_price env.priceAfterBase cfg.take_profit_percent) ∧
    (execute_dca_trade cfg pair env).savedTrade = none ∧
    (execute_dca_trade cfg pair env).savedOrders = [] := by
  unfold execute_dca_trade
  rw [hb]
  simp [save_trade, hs]

theorem save_failure_still_reports_success_witness :
    (sampleExecEnv (Except.ok ⟨0, "base"⟩) false).baseOrderResult
        = Except.ok ⟨0, "base"⟩ ∧
    (sampleExecEnv (Except.ok ⟨0, "base"⟩) false).saveOk = false ∧
    ((execute_dca_trade sampleCfg "ETHUSDT"
        (sampleExecEnv (Except.ok ⟨0, "base"⟩) false)).result =
      ExecResult.ok SaveRet.fail "ETHUSDT" sampleCfg.base_order
        (ladderLoop sampleCfg "ETHUSDT"
          (sampleExecEnv (Except.ok ⟨0, "base"⟩) false).priceAfterBase
          (sampleExecEnv (Except.ok ⟨0, "base"⟩) false)).1.length
        sampleCfg.take_profit_percent
        (calculate_take_profit_price
          (sampleExecEnv (Except.ok ⟨0, "base"⟩) false).priceAfterBase
          sampleCfg.take_profit_percent) ∧
     (execute_dca_trade sampleCfg "ETHUSDT"
        (sampleExecEnv (Except.ok ⟨0, "base"⟩) false)).savedTrade = none ∧
     (execute_dca_trade sampleCfg "ETHUSDT"
        (sampleExecEnv (Except.ok ⟨0, "base"⟩) false)).savedOrders = []) :=
  ⟨rfl, rfl,
   save_failure_still_reports_success sampleCfg "ETHUSDT" _ ⟨0, "base"⟩ rfl rfl⟩

theorem ladderLoopStep_fst (cfg : DcaConfig) (pair : String) (cp : ℚ)
    (env : ExecEnv) (acc : List SafetyOrder × List LimitCall) (i : ℕ) :
    (ladderLoopStep cfg pair cp env acc i).1
      = acc.1 ++ (survivingRung cfg pair cp env i).toList := by
  simp only [ladderLoopStep, survivingRung]
  split_ifs with h1
  · simp
  · cases hr : env.rungOrderResult i with
    | error e => simp
    | ok r =>
      by_cases h2 : r.retCode = 0 <;> simp [h2]

theorem ladderLoop_fold (cfg : DcaConfig) (pair : String) (cp : ℚ)
    (env : ExecEnv) (l : List ℕ) (acc : List SafetyOrder × List LimitCall) :
    (l.foldl (ladderLoopStep cfg pair cp env) acc).1
      = acc.1 ++ l.filterMap (survivingRung cfg pair cp env) := by
  induction l generalizing acc with
  | nil => simp
  | cons i t ih =>
    rw [List.foldl_cons, ih, List.filterMap_cons, ladderLoopStep_fst]
    cases h : survivingRung cfg pair cp env i with
    | none => simp [h]
    | some so => simp [h]

theorem ladderLoop_fst_eq (cfg : DcaConfig) (pair : String) (cp : ℚ)
    (env : ExecEnv) :
    (ladderLoop cfg pair cp env).1
      = (List.range cfg.max_safety_orders).filterMap
          (survivingRung cfg pair cp env) := by
  unfold ladderLoop
  rw [ladderLoop_fold]
  rfl

theorem survivingRung_index (cfg : DcaConfig) (pair : String) (cp : ℚ)
    (env : ExecEnv) (i : ℕ) (so : SafetyOrder)
    (h : survivingRung cfg pair cp env i = some so) : so.index = i + 1 := by
  simp only [survivingRung] at h
  by_cases h1 : env.rungMarketPrice i ≤
      ladderPrice cp cfg.price_deviation cfg.safety_order_step_scale i
  · rw [if_pos h1] at h
    cases h
  · rw [if_neg h1] at h
    cases hr : env.rungOrderResult i with
    | error e => rw [hr] at h; cases h
    | ok r =>
      rw [hr] at h
      dsimp only at h
      by_cases h2 : r.retCode = 0
      · rw [if_pos h2] at h
        injection h with h3
        rw [← h3]
      · rw [if_neg h2] at h
        cases h

/-- C8: with the base order accepted and the persistence commit
succeeding, the persisted ladder is exactly the candidate rungs whose
price was strictly below the fresh market sample at their check and
whose submission returned retCode 0 - a rung dropped for either reason
is simply absent while later rungs still go through - and every
surviving rung keeps its original one-based index. -/
theorem persisted_ladder_exact (cfg : DcaConfig) (pair : String)
    (env : ExecEnv) (r : OrderResponse)
    (hb : env.baseOrderResult = Except.ok r) (hs : env.saveOk = true) :
    ∃ t, (execute_dca_trade cfg pair env).savedTrade = some t ∧
      t.safety_orders = (List.range cfg.max_safety_orders).filterMap
        (survivingRung cfg pair env.priceAfterBase env) ∧
      ∀ i so, survivingRung cfg pair env.priceAfterBase env i = some so →
        so.index = i + 1 := by
  refine ⟨?_, ?_, ?_, ?_⟩
  case _ =>
    exact { id := env.savedId, deal_number := env.dealNumber, pair := pair,
            base_order := cfg.base_order,
            safety_orders := (List.range cfg.max_safety_orders).filterMap
              (survivingRung cfg pair env.priceAfterBase env),
            take_profit := cfg.take_profit_percent,
            take_profit_price := calculate_take_profit_price env.priceAfterBase
              cfg.take_profit_percent,
            status := "open" }
  case _ =>
    unfold execute_dca_trade
    rw [hb]
    simp [save_trade, hs, ladderLoop_fst_eq]
  case _ => rfl
  case _ => exact fun i so h => survivingRung_index cfg pair env.priceAfterBase env i so h

theorem persisted_ladder_exact_witness :
    (sampleExecEnv (Except.ok ⟨0, "base"⟩) true).baseOrderResult
        = Except.ok ⟨0, "base"⟩ ∧
    (sampleExecEnv (Except.ok ⟨0, "base"⟩) true).saveOk = true ∧
    (∃ t, (execute_dca_trade sampleCfg "ETHUSDT"
            (sampleExecEnv (Except.ok ⟨0, "base"⟩) true)).savedTrade = some t ∧
      t.safety_orders = (List.range sampleCfg.max_safety_orders).filterMap
        (survivingRung sampleCfg "ETHUSDT"
          (sampleExecEnv (Except.ok ⟨0, "base"⟩) true).priceAfterBase
          (sampleExecEnv (Except.ok ⟨0, "base"⟩) true)) ∧
      ∀ i so, survivingRung sampleCfg "ETHUSDT"
          (sampleExecEnv (Except.ok ⟨0, "base"⟩) true).priceAfterBase
          (sampleExecEnv (Except.ok ⟨0, "base"⟩) true) i = some so →
        so.index = i + 1) :=
  ⟨rfl, rfl,
   persisted_ladder_exact sampleCfg "ETHUSDT" _ ⟨0, "base"⟩ rfl rfl⟩

/-- C1 (code bug): on a well-formed OPEN trade row of the current
ten-column trades schema, check_and_place_take_profit_order raises
ValueError while destructuring the row into eight variables, so the
enclosing except returns a generic failure dict and no sell order is
ever submitted - the claimed quantity/price behaviour is unreachable.
Even past that slip, the code prices the order from a freshly computed
take-profit value, not from the stored take_profit_price column. -/
theorem take_profit_placement_crashes_on_open_trade :
    check_and_place_take_profit_order sampleTpEnv 1 (some sampleOpenTrade.tuple) =
      { result := TpResult.failed "ValueError: too many values to unpack (expected 8)",
        sellOrders := [], statusUpdate := none } := by
  rfl

/-- C7 (code bug): on a trade row whose status is TAKE_PROFIT_PLACED,
check_and_place_take_profit_order indeed issues no exchange call and
writes no status - but not because of the status guard: the row
destructuring raises ValueError first, so the caller receives the
generic unpack error instead of the explicit invalid-state error the
claim describes. -/
theorem take_profit_placement_crashes_on_nonopen_trade :
    check_and_place_take_profit_order sampleTpEnv 2 (some samplePlacedTrade.tuple) =
      { result := TpResult.failed "ValueError: too many values to unpack (expected 8)",
        sellOrders := [], statusUpdate := none } := by
  rfl

/-- C9: one monitoring tick processes every fetched trade through its
own pair of helper calls, so a failure outcome on an earlier trade
leaves both the length of the tick's outcome list and the processing
of every later trade unchanged. -/
theorem tick_isolates_per_trade_failures (env : TickEnv)
    (trades : List TradesRow) (i j : ℕ) (hij : i < j) (hj : j < trades.length)
    (e : String)
    (hfail : (monitorProcessTrade env
        (trades.get ⟨i, lt_trans hij hj⟩).id).2.result = TpResult.failed e) :
    (monitorTick env trades).length = trades.length ∧
    (monitorTick env trades).get ⟨j, by simpa [monitorTick] using hj⟩
      = monitorProcessTrade env (trades.get ⟨j, hj⟩).id := by
  constructor
  · simp [monitorTick]
  · simp [monitorTick]

theorem tick_isolates_per_trade_failures_witness :
    ((monitorProcessTrade sampleTickEnv
        ([sampleOpenTrade, samplePlacedTrade].get
          ⟨0, by norm_num⟩).id).2.result
      = TpResult.failed "ValueError: too many values to unpack (expected 8)") ∧
    ((monitorTick sampleTickEnv [sampleOpenTrade, samplePlacedTrade]).length
        = [sampleOpenTrade, samplePlacedTrade].length ∧
     (monitorTick sampleTickEnv [sampleOpenTrade, samplePlacedTrade]).get
        ⟨1, by simp [monitorTick]⟩
      = monitorProcessTrade sampleTickEnv
          ([sampleOpenTrade, samplePlacedTrade].get ⟨1, by norm_num⟩).id) :=
  ⟨rfl,
   tick_isolates_per_trade_failures sampleTickEnv
     [sampleOpenTrade, samplePlacedTrade] 0 1 (by norm_num) (by norm_num)
     "ValueError: too many values to unpack (expected 8)" rfl⟩

theorem foldl_orders_types (ops : List OrdersStoreOp) :
    ∀ (store : List OrderRow),
      (∀ o ∈ store, o.order_type = "safety_order") →
      ∀ o ∈ ops.foldl applyOrdersOp store, o.order_type = "safety_order" := by
  induction ops with
  | nil =>
    intro store h
    simpa using h
  | cons op t ih =>
    intro store h
    rw [List.foldl_cons]
    refine ih _ ?_
    intro o ho
    cases op with
    | insertTradeOrders tid sos committed =>
      simp only [applyOrdersOp] at ho
      by_cases hc : committed = true
      · rw [if_pos hc] at ho
        rcases List.mem_append.1 ho with hmem | hmem
        · exact h o hmem
        · rcases List.mem_map.1 hmem with ⟨p, hp, rfl⟩
          rfl
      · rw [if_neg hc] at ho
        exact h o ho
    | updateOrderStatus oid st =>
      simp only [applyOrdersOp] at ho
      rcases List.mem_map.1 ho with ⟨o2, ho2, rfl⟩
      by_cases he : o2.order_id = oid
      · rw [if_pos he]
        exact h o2 ho2
      · rw [if_neg he]
        exact h o2 ho2

theorem runOrdersOps_types (ops : List OrdersStoreOp) :
    ∀ o ∈ runOrdersOps ops, o.order_type = "safety_order" :=
  foldl_orders_types ops [] (by intro o ho; cases ho)

theorem find_tp_none (store : List OrderRow)
    (h : ∀ o ∈ store, o.order_type = "safety_order") :
    store.find? (fun o => o.tuple.get? 4 == some (DbVal.text "take_profit"))
      = none := by
  rw [List.find?_eq_none]
  intro o ho
  have hty := h o ho
  simp [OrderRow.tuple, hty]

/-- C10 counterexample: on a trade in state TAKE_PROFIT_PLACED whose
orders were written by save_trade, the cancel endpoint's not-found
failure surfaces as a 500 response wrapping the 404 detail - the
endpoint's except block catches its own HTTPException - so the
operation does not return a not-found (404) error as claimed, though
it still makes no exchange call and no status write. -/
theorem cancel_not_found_surfaced_as_500 :
    cancel_take_profit_order true (Except.ok ⟨0, "x"⟩) 2 (some samplePlacedTrade)
        (get_trade_orders (runOrdersOps
          [OrdersStoreOp.insertTradeOrders 2 samplePlacedTrade.safety_orders true]) 2)
      = { result := HttpResult.httpError 500 "404: Take profit order not found",
          cancelCalls := [], statusUpdate := none } ∧
    (cancel_take_profit_order true (Except.ok ⟨0, "x"⟩) 2 (some samplePlacedTrade)
        (get_trade_orders (runOrdersOps
          [OrdersStoreOp.insertTradeOrders 2 samplePlacedTrade.safety_orders true]) 2)).result
      ≠ HttpResult.httpError 404 "Take profit order not found" := by
  refine ⟨rfl, ?_⟩
  intro hcontra
  rw [show (cancel_take_profit_order true (Except.ok ⟨0, "x"⟩) 2 (some samplePlacedTrade)
        (get_trade_orders (runOrdersOps
          [OrdersStoreOp.insertTradeOrders 2 samplePlacedTrade.safety_orders true]) 2)).result
      = HttpResult.httpError 500 "404: Take profit order not found" from rfl] at hcontra
  cases hcontra

/-- C10 (amended): every order row any repository operation persists
has type safety_order, so on a TAKE_PROFIT_PLACED trade the cancel
endpoint's search finds no take-profit order and the not-found failure
is returned - surfaced by the endpoint's exception handler as a 500
response wrapping the 404 detail - with no exchange cancel call and no
status mutation. -/
theorem cancel_take_profit_finds_no_order (ops : List OrdersStoreOp)
    (trade_id : ℕ) (t : TradesRow) (cr : Except String OrderResponse)
    (hst : t.status = "take_profit_placed") :
    (∀ o ∈ runOrdersOps ops, o.order_type = "safety_order") ∧
    cancel_take_profit_order true cr trade_id (some t)
        (get_trade_orders (runOrdersOps ops) trade_id)
      = { result := HttpResult.httpError 500 "404: Take profit order not found",
          cancelCalls := [], statusUpdate := none } := by
  refine ⟨runOrdersOps_types ops, ?_⟩
  have hf : (get_trade_orders (runOrdersOps ops) trade_id).find?
      (fun o => o.tuple.get? 4 == some (DbVal.text "take_profit")) = none := by
    apply find_tp_none
    intro o ho
    exact runOrdersOps_types ops o (List.mem_filter.1 ho).1
  simp only [cancel_take_profit_order, hst]
  rw [if_neg (by simp), if_neg (by simp), hf]

theorem cancel_take_profit_finds_no_order_witness :
    samplePlacedTrade.status = "take_profit_placed" ∧
    ((∀ o ∈ runOrdersOps
        [OrdersStoreOp.insertTradeOrders 2 samplePlacedTrade.safety_orders true],
        o.order_type = "safety_order") ∧
     cancel_take_profit_order true (Except.error "net down") 2 (some samplePlacedTrade)
        (get_trade_orders (runOrdersOps
          [OrdersStoreOp.insertTradeOrders 2 samplePlacedTrade.safety_orders true]) 2)
      = { result := HttpResult.httpError 500 "404: Take profit order not found",
          cancelCalls := [], statusUpdate := none }) :=
  ⟨rfl,
   cancel_take_profit_finds_no_order
     [OrdersStoreOp.insertTradeOrders 2 samplePlacedTrade.safety_orders true]
     2 samplePlacedTrade (Except.error "net down") rfl⟩


end DcaBot
